import Mathlib

/-!
Verification of the Hilary collaboration platform sources: the redis pub/sub
utility module and the activity-notification pipeline.

The pub/sub definitions are a shallow embedding of
src/packages/oae-util/lib/pubsub.js.  The activity pipeline itself (seed
router, collector/aggregator, per-user notification state, email side-effect
dispatcher) is not among the sources; only its test suite
(src/packages/oae-activity/tests/test-notifications.js) is.  Those parts are
therefore modelled from the design specification, and each such definition
carries a doc comment saying so.
-/

namespace Hilary

/-- An error value as surfaced by the validation layer: an HTTP-like numeric
code together with a message, mirroring the objects passed to
validator.check in pubsub.js. -/
structure OaeError where
  code : Nat
  msg : String
deriving DecidableEq

/-- Modelled from the spec: the Validator helper (oae-util/lib/validator) is
not among the sources.  The spec requires publish to "validate non-empty
channel and message", so the notEmpty check is embedded as non-emptiness of
the string. -/
def notEmpty (s : String) : Bool := !s.isEmpty

/-- The two validator checks performed by publish in pubsub.js, in source
order: the channel check first, then the message check; each failing check
contributes its error object to the validator error list. -/
def publishValidationErrors (channel message : String) : List OaeError :=
  (if notEmpty channel then [] else [{ code := 400, msg := "No channel was provided." }])
    ++ (if notEmpty message then [] else [{ code := 400, msg := "No message was provided." }])

/-- What one call to publish does, as observed at its boundary: either the
callback is invoked with the first validation error and nothing reaches the
redis publisher, or the channel and message are forwarded to
redisPublisher.publish. -/
inductive PublishAction where
  | callbackError (e : OaeError)
  | forwardToPublisher (channel message : String)
deriving DecidableEq

/-- Shallow embedding of publish from src/packages/oae-util/lib/pubsub.js:
run the two validator checks; if the validator has errors, return the first
error through the callback without touching the publisher, otherwise forward
the channel and message to the underlying publisher. -/
def publishAction (channel message : String) : PublishAction :=
  match publishValidationErrors channel message with
  | [] => PublishAction.forwardToPublisher channel message
  | e :: _ => PublishAction.callbackError e

/-- The no-op function substituted for a missing callback by the line
callback = callback or-else function () in publish.  It records no
observation for the caller. -/
def noopCallback : Option OaeError → List OaeError := fun _ => []

/-- Invocation of a possibly-absent javascript callback value: calling a
non-function raises a TypeError, calling a function returns what the
function records. -/
def jsInvoke (f : Option (Option OaeError → List OaeError)) (arg : Option OaeError) :
    Except String (List OaeError) :=
  match f with
  | none => Except.error "TypeError: callback is not a function"
  | some g => Except.ok (g arg)

/-- publish with its optional callback argument, embedding the full body of
the source function: the missing callback is replaced by the no-op before
anything else happens, so the later invocation is always applied to an
actual function.  The result pairs the boundary action with the list of
errors the caller-supplied callback (or the substituted no-op) recorded on
the validation-failure path.  The forward to the redis publisher is modelled
as an action value. -/
def publishWithCallback (channel message : String)
    (cb : Option (Option OaeError → List OaeError)) :
    Except String (PublishAction × List OaeError) :=
  let callback := cb.getD noopCallback
  match publishAction channel message with
  | PublishAction.callbackError e =>
    (jsInvoke (some callback) (some e)).map (fun out => (PublishAction.callbackError e, out))
  | PublishAction.forwardToPublisher c m =>
    Except.ok (PublishAction.forwardToPublisher c m, [])

/-- The module-level connection state of pubsub.js: the three redis client
slots, each null until the corresponding createClient callback fires.
Client handles are modelled as numbers. -/
structure PubSubState where
  redisManager : Option Nat
  redisSubscriber : Option Nat
  redisPublisher : Option Nat
deriving DecidableEq

/-- The state of the pubsub module before any init call. -/
def initialPubSubState : PubSubState := { redisManager := none, redisSubscriber := none, redisPublisher := none }

/-- Everything one call to init does: the resulting module state, how many
redis clients were successfully created, whether psubscribe was performed,
and the arguments of every callback invocation (none stands for the
success invocation with no error). -/
structure InitOutcome where
  finalState : PubSubState
  clientsCreated : Nat
  subscribed : Bool
  callbackInvocations : List (Option OaeError)
deriving DecidableEq

/-- Shallow embedding of init from src/packages/oae-util/lib/pubsub.js.
The guard only opens the connections when redisManager is still null; there
is no else branch, so on a repeated call nothing happens and the callback is
never invoked.  Redis.createClient (whose implementation is outside the
sources) is abstracted as an oracle giving the result of the nth creation
attempt. -/
def init (createClient : Nat → Except OaeError Nat) (st : PubSubState) : InitOutcome :=
  if st.redisManager.isSome then
    { finalState := st, clientsCreated := 0, subscribed := false, callbackInvocations := [] }
  else
    match createClient 0 with
    | Except.error e =>
      { finalState := st, clientsCreated := 0, subscribed := false, callbackInvocations := [some e] }
    | Except.ok c1 =>
      match createClient 1 with
      | Except.error e =>
        { finalState := { st with redisManager := some c1 }, clientsCreated := 1,
          subscribed := false, callbackInvocations := [some e] }
      | Except.ok c2 =>
        match createClient 2 with
        | Except.error e =>
          { finalState := { st with redisManager := some c1, redisSubscriber := some c2 },
            clientsCreated := 2, subscribed := false, callbackInvocations := [some e] }
        | Except.ok c3 =>
          { finalState := { redisManager := some c1, redisSubscriber := some c2, redisPublisher := some c3 },
            clientsCreated := 3, subscribed := true, callbackInvocations := [none] }

/-- A typed resource reference of the activity data model: a resource type
and a resource identifier. -/
structure Resource where
  resourceType : String
  resourceId : String
deriving DecidableEq

/-- Modelled from the spec: ActivitySeed is the immutable description of one
user action, with the activity type, verb, published timestamp, actor and
object resources and an optional target resource, exactly the fields the
test suite passes to the ActivitySeed constructor. -/
structure ActivitySeed where
  activityType : String
  verb : String
  published : Nat
  actor : Resource
  object : Resource
  target : Option Resource
deriving DecidableEq

/-- Modelled from the spec: the AggregateKey derived from verb, actor type
plus id, object type and the optional target. -/
structure AggregateKey where
  verb : String
  actorKey : String
  objectType : String
  targetKey : Option Resource
deriving DecidableEq

/-- Modelled from the spec: the aggregation key of a seed. -/
def seedKey (s : ActivitySeed) : AggregateKey :=
  { verb := s.verb
    actorKey := s.actor.resourceType ++ ":" ++ s.actor.resourceId
    objectType := s.object.resourceType
    targetKey := s.target }

/-- Modelled from the spec: an AggregateActivity of a notification feed,
with its key, the set of contributing actors, the object collection
(deduplicated by id), the optional target, the first and last contribution
times, the activity identifier used by the side-effect dispatcher, and a
flag recording that its aggregation window has been closed (mark-as-read
closes every open window). -/
structure AggregateActivity where
  key : AggregateKey
  actors : List Resource
  objects : List Resource
  target : Option Resource
  firstTime : Nat
  lastTime : Nat
  activityId : Nat
  closed : Bool
deriving DecidableEq

/-- Modelled from the spec: the per-user notification state, holding the
notification feed most-recent-first, the unread counter and the last-read
timestamp (unset before the first mark-as-read). -/
structure NotificationState where
  feed : List AggregateActivity
  unreadCount : Nat
  lastReadTime : Option Nat
deriving DecidableEq

/-- The notification state of a user that never received anything. -/
def initNotif : NotificationState := { feed := [], unreadCount := 0, lastReadTime := none }

/-- Closing the aggregation window of one feed entry. -/
def closeEntry (e : AggregateActivity) : AggregateActivity := { e with closed := true }

/-- Modelled from the spec: markNotificationsRead sets lastReadTime to now,
resets unreadCount to 0, and closes all currently-open aggregation windows
of the notification feed of that recipient. -/
def markNotificationsRead (now : Nat) (ns : NotificationState) : NotificationState :=
  { feed := ns.feed.map closeEntry, unreadCount := 0, lastReadTime := some now }

/-- Modelled from the spec: a feed entry can still aggregate a seed with key
k at time now when it has that key, its window was not closed by a
mark-as-read, and its last contribution is within the aggregation window
length W. -/
def openMatch (W now : Nat) (k : AggregateKey) (e : AggregateActivity) : Bool :=
  decide (e.key = k) && !e.closed && decide (now ≤ e.lastTime + W)

/-- Modelled from the spec: the fresh AggregateActivity created for a seed
that found no open aggregate, carrying a fresh activity identifier. -/
def newEntry (s : ActivitySeed) (now fresh : Nat) : AggregateActivity :=
  { key := seedKey s, actors := [s.actor], objects := [s.object], target := s.target
    firstTime := now, lastTime := now, activityId := fresh, closed := false }

/-- Modelled from the spec: merging one more seed into an open aggregate:
union the actors, append the object unless an object with the same id is
already in the collection, and extend lastTime. -/
def mergeEntry (e : AggregateActivity) (s : ActivitySeed) (now : Nat) : AggregateActivity :=
  { e with
    actors := if s.actor ∈ e.actors then e.actors else e.actors ++ [s.actor]
    objects := if s.object.resourceId ∈ e.objects.map Resource.resourceId then e.objects
               else e.objects ++ [s.object]
    lastTime := max e.lastTime now }

/-- Remove the first element satisfying p from a list, returning it (when
present) together with the remaining elements in their original order. -/
def extractFirst {α : Type} (p : α → Bool) : List α → Option α × List α
  | [] => (none, [])
  | e :: rest =>
    if p e then (some e, rest)
    else
      let out := extractFirst p rest
      (out.1, e :: out.2)

/-- Modelled from the spec: delivering one collected seed into a recipient
notification state at cycle time now.  If an open aggregate with the same
key exists, the seed merges into it and the refreshed entry moves to the
most-recent position without touching the unread counter; otherwise a new
aggregate with a fresh activity id is prepended and the unread counter is
incremented.  Returns the new state, the activity id of the touched entry,
and whether the entry is new. -/
def deliverSeedFull (W now fresh : Nat) (ns : NotificationState) (s : ActivitySeed) :
    NotificationState × Nat × Bool :=
  let out := extractFirst (openMatch W now (seedKey s)) ns.feed
  match out.1 with
  | some e =>
    ({ feed := mergeEntry e s now :: out.2, unreadCount := ns.unreadCount,
       lastReadTime := ns.lastReadTime }, e.activityId, false)
  | none =>
    ({ feed := newEntry s now fresh :: ns.feed, unreadCount := ns.unreadCount + 1,
       lastReadTime := ns.lastReadTime }, fresh, true)

/-- The notification-state component of deliverSeedFull. -/
def deliverSeed (W now fresh : Nat) (ns : NotificationState) (s : ActivitySeed) :
    NotificationState :=
  (deliverSeedFull W now fresh ns s).1

/-- One operation applied to a recipient notification state: the delivery of
one collected seed, or a mark-as-read. -/
inductive FeedOp where
  | deliver (s : ActivitySeed)
  | markRead
deriving DecidableEq

/-- Run a timed sequence of operations against a notification state,
threading the fresh activity id counter. -/
def runOps (W : Nat) : List (Nat × FeedOp) → NotificationState → Nat → NotificationState
  | [], ns, _ => ns
  | (t, FeedOp.deliver s) :: rest, ns, fresh => runOps W rest (deliverSeed W t fresh ns s) (fresh + 1)
  | (t, FeedOp.markRead) :: rest, ns, fresh => runOps W rest (markNotificationsRead t ns) fresh

/-- The timestamps of an operation sequence are strictly increasing and
start no earlier than the given bound. -/
def timesOk : Nat → List (Nat × FeedOp) → Bool
  | _, [] => true
  | bound, (t, _) :: rest => decide (bound ≤ t) && timesOk (t + 1) rest

/-- Whether a feed entry counts towards the unread total: every entry when
no mark-as-read ever happened, otherwise the entries touched strictly after
the last read time. -/
def countsAsUnread (lrt : Option Nat) (e : AggregateActivity) : Bool :=
  match lrt with
  | none => true
  | some t => decide (t < e.lastTime)

/-- The feed ordering invariant of the spec: read most-recent-first, the
last-contribution times are non-increasing. -/
def FeedSorted (feed : List AggregateActivity) : Prop :=
  feed.Pairwise (fun a b => b.lastTime ≤ a.lastTime)

/-- The reachability invariant of a recipient notification state at a point
where every future operation carries a timestamp of at least bound: the
unread counter agrees with the number of entries counted since the last
read, all last-contribution times and the last read time lie below bound,
every entry with an open window counts as unread, and the feed is ordered
most-recent-first. -/
def Inv (bound : Nat) (ns : NotificationState) : Prop :=
  ns.unreadCount = (ns.feed.filter (countsAsUnread ns.lastReadTime)).length
  ∧ (∀ e ∈ ns.feed, e.lastTime < bound)
  ∧ (∀ e ∈ ns.feed, e.closed = false → countsAsUnread ns.lastReadTime e = true)
  ∧ (∀ t, ns.lastReadTime = some t → t < bound)
  ∧ FeedSorted ns.feed

/-- Recipients are identified by plain strings. -/
abbrev RecipientId := String

/-- Modelled from the spec: inserting a routed seed into the pending store.
The entry key is the identity of the seed together with the recipient, so
re-insertion of an already-pending pair is a no-op rather than a
duplication. -/
def enqueuePending (p : List (RecipientId × ActivitySeed)) (r : RecipientId) (s : ActivitySeed) :
    List (RecipientId × ActivitySeed) :=
  if (r, s) ∈ p then p else p ++ [(r, s)]

/-- Modelled from the spec: the whole-pipeline state: the pending routed
seeds, the per-recipient notification states, the side-effect receipts
recorded as pairs of activity id and recipient, the log of emails actually
sent (recipient paired with activity id), and the fresh activity id
counter. -/
structure PipelineState where
  pending : List (RecipientId × ActivitySeed)
  notif : List (RecipientId × NotificationState)
  receipts : List (Nat × RecipientId)
  emails : List (RecipientId × Nat)
  nextId : Nat
deriving DecidableEq

/-- The pipeline state before any activity. -/
def initPipeline : PipelineState :=
  { pending := [], notif := [], receipts := [], emails := [], nextId := 0 }

/-- Modelled from the spec: routeActivity resolves the recipients of a seed
through the pluggable resolver and enqueues one pending routed copy per
recipient, deduplicating identical seed-plus-recipient pairs. -/
def routeActivity (resolve : ActivitySeed → List RecipientId) (s : ActivitySeed)
    (st : PipelineState) : PipelineState :=
  { st with pending := (resolve s).foldl (fun p r => enqueuePending p r s) st.pending }

/-- Look up the notification state of a recipient; an unknown recipient has
the empty state. -/
def getNotif : List (RecipientId × NotificationState) → RecipientId → NotificationState
  | [], _ => initNotif
  | (q, ns) :: rest, r => if q = r then ns else getNotif rest r

/-- Store the notification state of a recipient. -/
def setNotif : List (RecipientId × NotificationState) → RecipientId → NotificationState →
    List (RecipientId × NotificationState)
  | [], r, ns => [(r, ns)]
  | (q, old) :: rest, r, ns => if q = r then (r, ns) :: rest else (q, old) :: setNotif rest r ns

/-- Modelled from the spec: the side-effect dispatcher for the email effect.
Before sending, it attempts to create a receipt for the pair of activity id
and recipient; when the receipt already exists the dispatch is a no-op,
otherwise the receipt is recorded and the email is sent.  Recipients without
email enabled are skipped. -/
def dispatchEmail (emailEnabled : RecipientId → Bool) (aid : Nat) (r : RecipientId)
    (st : PipelineState) : PipelineState :=
  if emailEnabled r then
    if (aid, r) ∈ st.receipts then st
    else { st with receipts := (aid, r) :: st.receipts, emails := st.emails ++ [(r, aid)] }
  else st

/-- Modelled from the spec: processing one drained pending entry during a
collection cycle.  The actor of the seed never receives a notification; any
other recipient gets the seed delivered into its notification state, and the
email side effect is dispatched for the newly created or newly extended
entry. -/
def processPendingEntry (W now : Nat) (emailEnabled : RecipientId → Bool)
    (st : PipelineState) (entry : RecipientId × ActivitySeed) : PipelineState :=
  if entry.1 = entry.2.actor.resourceId then st
  else
    let out := deliverSeedFull W now st.nextId (getNotif st.notif entry.1) entry.2
    let st2 := { st with
      notif := setNotif st.notif entry.1 out.1
      nextId := if out.2.2 then st.nextId + 1 else st.nextId }
    dispatchEmail emailEnabled out.2.1 entry.1 st2

/-- Modelled from the spec: one collection cycle drains the whole pending
store and processes every drained entry in order. -/
def collectCycle (W now : Nat) (emailEnabled : RecipientId → Bool) (st : PipelineState) :
    PipelineState :=
  st.pending.foldl (processPendingEntry W now emailEnabled) { st with pending := [] }

/-- A concrete content-creation seed used to instantiate the theorems. -/
def seedA : ActivitySeed :=
  { activityType := "content-create", verb := "create", published := 1
    actor := { resourceType := "user", resourceId := "u:cam:mrvisser" }
    object := { resourceType := "content", resourceId := "c:cam:google1" }
    target := none }

/-- A second content-creation seed by the same actor with a different
object, aggregating with seedA. -/
def seedB : ActivitySeed :=
  { activityType := "content-create", verb := "create", published := 2
    actor := { resourceType := "user", resourceId := "u:cam:mrvisser" }
    object := { resourceType := "content", resourceId := "c:cam:google2" }
    target := none }

/-- A concrete content-update seed used to instantiate the routing and email
deduplication theorem. -/
def seedU : ActivitySeed :=
  { activityType := "content-update", verb := "update", published := 5
    actor := { resourceType := "user", resourceId := "u:cam:simong" }
    object := { resourceType := "content", resourceId := "c:cam:yahoo" }
    target := none }

/-- A concrete resolver delivering to the two email recipients of the mail
deduplication scenario. -/
def resolveTwo : ActivitySeed → List RecipientId := fun _ => ["u:cam:mrvisser", "u:cam:nico"]

/-- A concrete resolver delivering to the actor stream and one member. -/
def resolveActorAndMember : ActivitySeed → List RecipientId :=
  fun s => [s.actor.resourceId, "u:cam:simong"]

/-- A concrete timed operation sequence: two aggregating deliveries, a
mark-as-read, and one more delivery. -/
def opsA : List (Nat × FeedOp) :=
  [(1, FeedOp.deliver seedA), (2, FeedOp.deliver seedB), (3, FeedOp.markRead),
   (5, FeedOp.deliver seedA)]

/-- A second concrete timed operation sequence used for the ordering
theorem. -/
def opsB : List (Nat × FeedOp) :=
  [(1, FeedOp.deliver seedA), (4, FeedOp.deliver seedU), (6, FeedOp.deliver seedB),
   (7, FeedOp.markRead), (9, FeedOp.deliver seedB)]

/-- The remainder returned by extractFirst is a sublist of the input. -/
theorem extractFirst_snd_sublist {α : Type} (p : α → Bool) (l : List α) :
    (extractFirst p l).2.Sublist l := by
  induction l with
  | nil => exact List.Sublist.refl []
  | cons e rest ih =>
    by_cases hpe : p e
    · rw [extractFirst, if_pos hpe]
      exact List.sublist_cons_self e rest
    · rw [extractFirst, if_neg hpe]
      exact ih.cons₂ e

/-- When every element fails the predicate, extractFirst finds nothing and
returns the list unchanged. -/
theorem extractFirst_none {α : Type} (p : α → Bool) (l : List α)
    (h : ∀ x ∈ l, p x = false) : extractFirst p l = (none, l) := by
  induction l with
  | nil => rfl
  | cons e rest ih =>
    have hpe : ¬p e = true := by
      rw [h e (List.mem_cons_self e rest)]; exact Bool.false_ne_true
    have hr := ih (fun x hx => h x (List.mem_cons_of_mem e hx))
    rw [extractFirst, if_neg hpe]
    simp [hr]

/-- When extractFirst finds an element, the element satisfies the predicate
and the input is a permutation of the element together with the
remainder. -/
theorem extractFirst_some {α : Type} (p : α → Bool) :
    ∀ (l rest : List α) (e : α), extractFirst p l = (some e, rest) →
    p e = true ∧ l.Perm (e :: rest) := by
  intro l
  induction l with
  | nil => intro rest e h; simp [extractFirst] at h
  | cons a tl ih =>
    intro rest e h
    by_cases hpa : p a = true
    · rw [extractFirst, if_pos hpa] at h
      simp only [Prod.mk.injEq, Option.some.injEq] at h
      obtain ⟨rfl, rfl⟩ := h
      exact ⟨hpa, List.Perm.refl _⟩
    · rw [extractFirst, if_neg hpa] at h
      simp only [Prod.mk.injEq] at h
      obtain ⟨h1, h2⟩ := h
      rcases hetl : extractFirst p tl with ⟨o, r2⟩
      rw [hetl] at h1 h2
      simp only at h1 h2
      subst h1
      obtain ⟨hpe, hperm⟩ := ih r2 e hetl
      refine ⟨hpe, ?_⟩
      rw [← h2]
      exact (hperm.cons a).trans (List.Perm.swap e a r2)

/-- The empty notification state satisfies the reachability invariant at
every bound. -/
theorem inv_initNotif (bound : Nat) : Inv bound initNotif := by
  refine ⟨rfl, ?_, ?_, ?_, ?_⟩
  · intro e he; cases he
  · intro e he; cases he
  · intro t ht; cases ht
  · exact List.Pairwise.nil

/-- Delivering a collected seed preserves the reachability invariant when
the cycle time is not below the bound. -/
theorem inv_deliver (W t fresh bound : Nat) (ns : NotificationState) (s : ActivitySeed)
    (hinv : Inv bound ns) (hbt : bound ≤ t) :
    Inv (t + 1) (deliverSeed W t fresh ns s) := by
  obtain ⟨h1, h2, h3, h4, h5⟩ := hinv
  rcases hef : extractFirst (openMatch W t (seedKey s)) ns.feed with ⟨o, rest⟩
  cases o with
  | none =>
    have hds : deliverSeed W t fresh ns s =
        { feed := newEntry s t fresh :: ns.feed, unreadCount := ns.unreadCount + 1,
          lastReadTime := ns.lastReadTime } := by
      unfold deliverSeed deliverSeedFull
      rw [hef]
    rw [hds]
    have hqnew : countsAsUnread ns.lastReadTime (newEntry s t fresh) = true := by
      cases hl : ns.lastReadTime with
      | none => rfl
      | some rt =>
        have hrt := h4 rt hl
        unfold countsAsUnread newEntry
        simp only [decide_eq_true_eq]
        omega
    refine ⟨?_, ?_, ?_, ?_, ?_⟩
    · show ns.unreadCount + 1 =
        (List.filter (countsAsUnread ns.lastReadTime) (newEntry s t fresh :: ns.feed)).length
      rw [List.filter_cons_of_pos hqnew, List.length_cons, h1]
    · intro x hx
      rcases List.mem_cons.mp hx with rfl | hm
      · show t < t + 1
        omega
      · exact lt_of_lt_of_le (h2 x hm) (by omega)
    · intro x hx hcl
      rcases List.mem_cons.mp hx with rfl | hm
      · exact hqnew
      · exact h3 x hm hcl
    · intro u hu
      exact lt_of_lt_of_le (h4 u hu) (by omega)
    · show FeedSorted (newEntry s t fresh :: ns.feed)
      unfold FeedSorted
      rw [List.pairwise_cons]
      refine ⟨?_, h5⟩
      intro b hb
      have hb2 := h2 b hb
      show b.lastTime ≤ t
      omega
  | some e =>
    obtain ⟨hp, hperm⟩ := extractFirst_some (openMatch W t (seedKey s)) ns.feed rest e hef
    have hsub : rest.Sublist ns.feed := by
      have hs := extractFirst_snd_sublist (openMatch W t (seedKey s)) ns.feed
      rw [hef] at hs
      exact hs
    have he_mem : e ∈ ns.feed := hperm.mem_iff.mpr (List.mem_cons_self e rest)
    have hclosed : e.closed = false := by
      unfold openMatch at hp
      simp only [Bool.and_eq_true, Bool.not_eq_true', decide_eq_true_eq] at hp
      exact hp.1.2
    have hlt_e : e.lastTime < bound := h2 e he_mem
    have hmax : (mergeEntry e s t).lastTime = t := by
      show max e.lastTime t = t
      omega
    have hq_e : countsAsUnread ns.lastReadTime e = true := h3 e he_mem hclosed
    have hq_m : countsAsUnread ns.lastReadTime (mergeEntry e s t) = true := by
      cases hl : ns.lastReadTime with
      | none => rfl
      | some rt =>
        have hrt := h4 rt hl
        unfold countsAsUnread
        rw [hmax]
        simp only [decide_eq_true_eq]
        omega
    have hds : deliverSeed W t fresh ns s =
        { feed := mergeEntry e s t :: rest, unreadCount := ns.unreadCount,
          lastReadTime := ns.lastReadTime } := by
      unfold deliverSeed deliverSeedFull
      rw [hef]
    rw [hds]
    refine ⟨?_, ?_, ?_, ?_, ?_⟩
    · show ns.unreadCount =
        (List.filter (countsAsUnread ns.lastReadTime) (mergeEntry e s t :: rest)).length
      have hfl : (List.filter (countsAsUnread ns.lastReadTime) ns.feed).length
          = (List.filter (countsAsUnread ns.lastReadTime) (e :: rest)).length :=
        (hperm.filter (countsAsUnread ns.lastReadTime)).length_eq
      rw [h1, hfl, List.filter_cons_of_pos hq_e, List.filter_cons_of_pos hq_m]
      simp only [List.length_cons]
    · intro x hx
      rcases List.mem_cons.mp hx with rfl | hm
      · rw [hmax]; omega
      · exact lt_of_lt_of_le (h2 x (hsub.subset hm)) (by omega)
    · intro x hx hcl
      rcases List.mem_cons.mp hx with rfl | hm
      · exact hq_m
      · exact h3 x (hsub.subset hm) hcl
    · intro u hu
      exact lt_of_lt_of_le (h4 u hu) (by omega)
    · unfold FeedSorted
      rw [List.pairwise_cons]
      refine ⟨?_, h5.sublist hsub⟩
      intro b hb
      rw [hmax]
      exact le_of_lt (lt_of_lt_of_le (h2 b (hsub.subset hb)) hbt)

/-- Marking notifications read preserves the reachability invariant when the
read time is not below the bound. -/
theorem inv_markRead (t bound : Nat) (ns : NotificationState) (hinv : Inv bound ns)
    (hbt : bound ≤ t) :
    Inv (t + 1) (markNotificationsRead t ns) := by
  obtain ⟨h1, h2, h3, h4, h5⟩ := hinv
  refine ⟨?_, ?_, ?_, ?_, ?_⟩
  · show 0 = (List.filter (countsAsUnread (some t)) (ns.feed.map closeEntry)).length
    have hnil : List.filter (countsAsUnread (some t)) (ns.feed.map closeEntry) = [] := by
      rw [List.filter_eq_nil_iff]
      intro a ha
      obtain ⟨x, hx, rfl⟩ := List.mem_map.mp ha
      have hlt := h2 x hx
      unfold countsAsUnread closeEntry
      simp only [decide_eq_true_eq]
      omega
    rw [hnil]
    rfl
  · intro x hx
    obtain ⟨y, hy, rfl⟩ := List.mem_map.mp hx
    have hlt := h2 y hy
    show y.lastTime < t + 1
    omega
  · intro x hx hcl
    obtain ⟨y, hy, rfl⟩ := List.mem_map.mp hx
    exact absurd hcl (by unfold closeEntry; simp)
  · intro u hu
    cases hu
    omega
  · show FeedSorted (ns.feed.map closeEntry)
    unfold FeedSorted
    rw [List.pairwise_map]
    exact h5

/-- Running any timed operation sequence with strictly increasing
timestamps preserves the reachability invariant. -/
theorem runOps_inv (W : Nat) (ops : List (Nat × FeedOp)) :
    ∀ (bound fresh : Nat) (ns : NotificationState), timesOk bound ops = true → Inv bound ns →
    ∃ bound2, Inv bound2 (runOps W ops ns fresh) := by
  induction ops with
  | nil =>
    intro bound fresh ns _ hinv
    exact ⟨bound, hinv⟩
  | cons hd tl ih =>
    intro bound fresh ns htimes hinv
    obtain ⟨t, op⟩ := hd
    rw [timesOk, Bool.and_eq_true, decide_eq_true_eq] at htimes
    obtain ⟨hbt, htl⟩ := htimes
    cases op with
    | deliver s =>
      exact ih (t + 1) (fresh + 1) (deliverSeed W t fresh ns s) htl
        (inv_deliver W t fresh bound ns s hinv hbt)
    | markRead =>
      exact ih (t + 1) fresh (markNotificationsRead t ns) htl
        (inv_markRead t bound ns hinv hbt)

/-- Claim C6: a publish call with an empty channel or an empty message
invokes the callback with a 400-code validation error and forwards nothing
to the underlying publisher; the validation happens before the send. -/
theorem C6_publish_validates_before_send (channel message : String)
    (h : channel = "" ∨ message = "") :
    (∃ e : OaeError, publishAction channel message = PublishAction.callbackError e ∧ e.code = 400)
    ∧ ∀ c m : String, publishAction channel message ≠ PublishAction.forwardToPublisher c m := by
  have hch : notEmpty "" = false := rfl
  rcases h with h | h
  · subst h
    have hpa : publishAction "" message =
        PublishAction.callbackError { code := 400, msg := "No channel was provided." } := by
      unfold publishAction publishValidationErrors
      rw [hch]
      simp
    refine ⟨⟨_, hpa, rfl⟩, ?_⟩
    intro c m hcm
    rw [hpa] at hcm
    exact PublishAction.noConfusion hcm
  · subst h
    by_cases hc : notEmpty channel = true
    · have hpa : publishAction channel "" =
          PublishAction.callbackError { code := 400, msg := "No message was provided." } := by
        unfold publishAction publishValidationErrors
        rw [hch, hc]
        simp
      refine ⟨⟨_, hpa, rfl⟩, ?_⟩
      intro c m hcm
      rw [hpa] at hcm
      exact PublishAction.noConfusion hcm
    · have hc2 : notEmpty channel = false := by
        cases hcv : notEmpty channel
        · rfl
        · exact absurd hcv hc
      have hpa : publishAction channel "" =
          PublishAction.callbackError { code := 400, msg := "No channel was provided." } := by
        unfold publishAction publishValidationErrors
        rw [hch, hc2]
        simp
      refine ⟨⟨_, hpa, rfl⟩, ?_⟩
      intro c m hcm
      rw [hpa] at hcm
      exact PublishAction.noConfusion hcm

/-- Witness for claim C6 at the concrete call publish("", "start 2000"). -/
theorem C6_publish_validates_before_send_witness :
    (∃ e : OaeError, publishAction "" "start 2000" = PublishAction.callbackError e ∧ e.code = 400)
    ∧ ∀ c m : String, publishAction "" "start 2000" ≠ PublishAction.forwardToPublisher c m :=
  C6_publish_validates_before_send "" "start 2000" (Or.inl rfl)

/-- Claim C9: a second init call made once the manager client is non-null
creates no redis clients, performs no subscription, and never invokes its
callback, because the body of init is guarded by the null check on
redisManager and the function has no else branch. -/
theorem C9_init_twice_is_silent (createClient : Nat → Except OaeError Nat) (st : PubSubState)
    (h : st.redisManager.isSome = true) :
    init createClient st =
      { finalState := st, clientsCreated := 0, subscribed := false, callbackInvocations := [] } := by
  unfold init
  rw [if_pos h]

/-- Witness for claim C9: init on a state whose manager client is already
set, with a createClient oracle that would fail if consulted. -/
theorem C9_init_twice_is_silent_witness :
    init (fun _ => Except.error { code := 500, msg := "connection refused" })
        { redisManager := some 1, redisSubscriber := some 2, redisPublisher := some 3 } =
      { finalState := { redisManager := some 1, redisSubscriber := some 2, redisPublisher := some 3 }
        clientsCreated := 0, subscribed := false, callbackInvocations := [] } :=
  C9_init_twice_is_silent (fun _ => Except.error { code := 500, msg := "connection refused" })
    { redisManager := some 1, redisSubscriber := some 2, redisPublisher := some 3 } rfl

/-- Claim C10: when the callback argument of publish is omitted, the no-op
callback is substituted, so the call never raises and a validation failure
is swallowed: the call returns without error and no caller-supplied function
ever observes anything. -/
theorem C10_publish_without_callback_never_throws (channel message : String) :
    publishWithCallback channel message none = Except.ok (publishAction channel message, []) := by
  unfold publishWithCallback
  cases hpa : publishAction channel message with
  | callbackError e => simp [hpa, jsInvoke, noopCallback, Except.map]
  | forwardToPublisher c m => simp [hpa]

/-- Claim C2: after any sequence of collected deliveries and reads with
strictly increasing timestamps, the unread count equals the number of
distinct notification entries created or extended after the last read time;
and merging one more seed into an existing open aggregate never increments
the counter a second time. -/
theorem C2_unread_equals_distinct_aggregates :
    (∀ (W bound fresh : Nat) (ops : List (Nat × FeedOp)) (ns : NotificationState),
        timesOk bound ops = true → Inv bound ns →
        (runOps W ops ns fresh).unreadCount =
          ((runOps W ops ns fresh).feed.filter
            (countsAsUnread (runOps W ops ns fresh).lastReadTime)).length)
    ∧ (∀ (W now fresh : Nat) (ns : NotificationState) (s : ActivitySeed)
        (e : AggregateActivity) (rest : List AggregateActivity),
        extractFirst (openMatch W now (seedKey s)) ns.feed = (some e, rest) →
        (deliverSeed W now fresh ns s).unreadCount = ns.unreadCount) := by
  constructor
  · intro W bound fresh ops ns ht hinv
    obtain ⟨b2, h⟩ := runOps_inv W ops bound fresh ns ht hinv
    exact h.1
  · intro W now fresh ns s e rest hef
    unfold deliverSeed deliverSeedFull
    rw [hef]

/-- Witness for claim C2 at a concrete operation sequence: two aggregating
deliveries, a mark-as-read, one more delivery. -/
theorem C2_unread_equals_distinct_aggregates_witness :
    (runOps 10 opsA initNotif 0).unreadCount =
      ((runOps 10 opsA initNotif 0).feed.filter
        (countsAsUnread (runOps 10 opsA initNotif 0).lastReadTime)).length :=
  C2_unread_equals_distinct_aggregates.1 10 1 0 opsA initNotif (by decide) (inv_initNotif 1)

/-- Claim C8: under strictly increasing timestamps the notification feed,
read most-recent-first, stays ordered non-increasing by lastTime; moreover a
delivery either prepends a brand-new entry or extends the matching open
entry, keeping the remaining entries as an in-order sublist, so past entries
are never reordered. -/
theorem C8_feed_ordered_most_recent_first :
    (∀ (W bound fresh : Nat) (ops : List (Nat × FeedOp)) (ns : NotificationState),
        timesOk bound ops = true → Inv bound ns →
        FeedSorted (runOps W ops ns fresh).feed)
    ∧ (∀ (W now fresh : Nat) (ns : NotificationState) (s : ActivitySeed),
        (deliverSeed W now fresh ns s).feed = newEntry s now fresh :: ns.feed
        ∨ ∃ e rest, extractFirst (openMatch W now (seedKey s)) ns.feed = (some e, rest)
            ∧ (deliverSeed W now fresh ns s).feed = mergeEntry e s now :: rest
            ∧ rest.Sublist ns.feed) := by
  constructor
  · intro W bound fresh ops ns ht hinv
    obtain ⟨b2, h⟩ := runOps_inv W ops bound fresh ns ht hinv
    exact h.2.2.2.2
  · intro W now fresh ns s
    rcases hef : extractFirst (openMatch W now (seedKey s)) ns.feed with ⟨o, rest⟩
    cases o with
    | none =>
      left
      unfold deliverSeed deliverSeedFull
      rw [hef]
    | some e =>
      right
      refine ⟨e, rest, rfl, ?_, ?_⟩
      · unfold deliverSeed deliverSeedFull
        rw [hef]
      · have hs := extractFirst_snd_sublist (openMatch W now (seedKey s)) ns.feed
        rw [hef] at hs
        exact hs

/-- Witness for claim C8 at a concrete operation sequence. -/
theorem C8_feed_ordered_most_recent_first_witness :
    FeedSorted (runOps 10 opsB initNotif 0).feed :=
  C8_feed_ordered_most_recent_first.1 10 1 0 opsB initNotif (by decide) (inv_initNotif 1)

/-- Claim C3: markNotificationsRead sets lastReadTime to the read time and
the unread count to zero, and closes every open aggregation window, so that
the next delivered seed, even one with the aggregate key of an already-read
entry, creates a brand-new feed entry and increments the unread count
again. -/
theorem C3_markRead_resets_and_closes_windows (W now t fresh : Nat)
    (ns : NotificationState) (s : ActivitySeed) :
    (markNotificationsRead now ns).unreadCount = 0
    ∧ (markNotificationsRead now ns).lastReadTime = some now
    ∧ deliverSeed W t fresh (markNotificationsRead now ns) s =
        { feed := newEntry s t fresh :: (markNotificationsRead now ns).feed
          unreadCount := 1
          lastReadTime := some now } := by
  refine ⟨rfl, rfl, ?_⟩
  have hall : ∀ x ∈ (markNotificationsRead now ns).feed,
      openMatch W t (seedKey s) x = false := by
    intro x hx
    have hx2 : x ∈ ns.feed.map closeEntry := hx
    obtain ⟨y, hy, rfl⟩ := List.mem_map.mp hx2
    unfold openMatch closeEntry
    simp
  have hef := extractFirst_none (openMatch W t (seedKey s)) (markNotificationsRead now ns).feed hall
  unfold deliverSeed deliverSeedFull
  rw [hef]
  rfl

/-- Claim C4: two seeds with equal aggregate key delivered inside one open
aggregation window merge into a single aggregate entry whose object
collection holds both objects, and the unread count is one, not two. -/
theorem C4_same_key_aggregates_once (W t1 t2 f1 f2 : Nat) (s1 s2 : ActivitySeed)
    (hk : seedKey s1 = seedKey s2) (h12 : t1 ≤ t2) (hw : t2 ≤ t1 + W)
    (hobj : s1.object.resourceId ≠ s2.object.resourceId) :
    (deliverSeed W t2 f2 (deliverSeed W t1 f1 initNotif s1) s2).feed.map
        (fun e => e.objects) = [[s1.object, s2.object]]
    ∧ (deliverSeed W t2 f2 (deliverSeed W t1 f1 initNotif s1) s2).unreadCount = 1 := by
  have h1 : deliverSeed W t1 f1 initNotif s1 =
      { feed := [newEntry s1 t1 f1], unreadCount := 1, lastReadTime := none } := rfl
  have hopen : openMatch W t2 (seedKey s2) (newEntry s1 t1 f1) = true := by
    unfold openMatch newEntry
    simp only [Bool.and_eq_true, Bool.not_eq_true', decide_eq_true_eq]
    exact ⟨⟨hk, by trivial⟩, by omega⟩
  have hef : extractFirst (openMatch W t2 (seedKey s2)) [newEntry s1 t1 f1]
      = (some (newEntry s1 t1 f1), []) := by
    simp [extractFirst, hopen]
  have h2 : deliverSeed W t2 f2 (deliverSeed W t1 f1 initNotif s1) s2
      = { feed := [mergeEntry (newEntry s1 t1 f1) s2 t2], unreadCount := 1,
          lastReadTime := none } := by
    rw [h1]
    simp only [deliverSeed, deliverSeedFull]
    rw [hef]
  have hobjs : (mergeEntry (newEntry s1 t1 f1) s2 t2).objects = [s1.object, s2.object] := by
    unfold mergeEntry newEntry
    simp [Ne.symm hobj]
  rw [h2]
  constructor
  · simp [hobjs]
  · rfl

/-- Witness for claim C4 at two concrete content-create seeds with the same
aggregation key and distinct objects. -/
theorem C4_same_key_aggregates_once_witness :
    (deliverSeed 10 2 1 (deliverSeed 10 1 0 initNotif seedA) seedB).feed.map
        (fun e => e.objects) = [[seedA.object, seedB.object]]
    ∧ (deliverSeed 10 2 1 (deliverSeed 10 1 0 initNotif seedA) seedB).unreadCount = 1 :=
  C4_same_key_aggregates_once 10 1 2 0 1 seedA seedB (by decide) (by decide) (by decide)
    (by decide)

/-- Claim C7: markNotificationsRead is idempotent: after one call the unread
count is zero, a second call in succession leaves the whole state, and in
particular the last read time, unchanged. -/
theorem C7_markRead_idempotent (now : Nat) (ns : NotificationState) :
    (markNotificationsRead now ns).unreadCount = 0
    ∧ markNotificationsRead now (markNotificationsRead now ns) = markNotificationsRead now ns
    ∧ (markNotificationsRead now (markNotificationsRead now ns)).lastReadTime
        = (markNotificationsRead now ns).lastReadTime := by
  refine ⟨rfl, ?_, rfl⟩
  show ({ feed := (ns.feed.map closeEntry).map closeEntry, unreadCount := 0,
          lastReadTime := some now } : NotificationState)
      = { feed := ns.feed.map closeEntry, unreadCount := 0, lastReadTime := some now }
  have hcc : closeEntry ∘ closeEntry = closeEntry := funext fun e => rfl
  rw [List.map_map, hcc]

/-- Enqueuing a routed seed puts that pair in the pending store. -/
theorem mem_enqueuePending_self (p : List (RecipientId × ActivitySeed)) (r : RecipientId)
    (s : ActivitySeed) : (r, s) ∈ enqueuePending p r s := by
  unfold enqueuePending
  split
  · assumption
  · exact List.mem_append_right p (List.mem_singleton.mpr rfl)

/-- Enqueuing preserves the entries already pending. -/
theorem mem_enqueuePending_of_mem (p : List (RecipientId × ActivitySeed)) (r : RecipientId)
    (s : ActivitySeed) (x : RecipientId × ActivitySeed) (hx : x ∈ p) :
    x ∈ enqueuePending p r s := by
  unfold enqueuePending
  split
  · exact hx
  · exact List.mem_append_left _ hx

/-- Routing a seed to a list of recipients preserves pending entries. -/
theorem mem_routeFold_of_mem (s : ActivitySeed) (l : List RecipientId) :
    ∀ (p : List (RecipientId × ActivitySeed)) (x : RecipientId × ActivitySeed), x ∈ p →
      x ∈ l.foldl (fun q r => enqueuePending q r s) p := by
  induction l with
  | nil => intro p x hx; exact hx
  | cons r tl ih =>
    intro p x hx
    exact ih (enqueuePending p r s) x (mem_enqueuePending_of_mem p r s x hx)

/-- After routing, every resolved recipient has its pair pending. -/
theorem mem_routeFold_all (s : ActivitySeed) (l : List RecipientId) :
    ∀ (p : List (RecipientId × ActivitySeed)) (r : RecipientId), r ∈ l →
      (r, s) ∈ l.foldl (fun q u => enqueuePending q u s) p := by
  induction l with
  | nil => intro p r hr; cases hr
  | cons r0 tl ih =>
    intro p r hr
    rcases List.mem_cons.mp hr with rfl | hm
    · exact mem_routeFold_of_mem s tl (enqueuePending p r s) (r, s)
        (mem_enqueuePending_self p r s)
    · exact ih (enqueuePending p r0 s) r hm

/-- Enqueuing an already-pending pair changes nothing. -/
theorem enqueuePending_noop (p : List (RecipientId × ActivitySeed)) (r : RecipientId)
    (s : ActivitySeed) (h : (r, s) ∈ p) : enqueuePending p r s = p := if_pos h

/-- Routing to recipients whose pairs are all pending changes nothing. -/
theorem routeFold_noop (s : ActivitySeed) (l : List RecipientId) :
    ∀ p : List (RecipientId × ActivitySeed), (∀ r ∈ l, (r, s) ∈ p) →
      l.foldl (fun q r => enqueuePending q r s) p = p := by
  induction l with
  | nil => intro p _; rfl
  | cons r0 tl ih =>
    intro p h
    have h0 : enqueuePending p r0 s = p :=
      enqueuePending_noop p r0 s (h r0 (List.mem_cons_self r0 tl))
    show List.foldl (fun q r => enqueuePending q r s) (enqueuePending p r0 s) tl = p
    rw [h0]
    exact ih p (fun r hr => h r (List.mem_cons_of_mem r0 hr))

/-- Routing the identical seed twice equals routing it once: deterministic
entry keys make re-insertion a no-op. -/
theorem routeActivity_idem (resolve : ActivitySeed → List RecipientId) (s : ActivitySeed)
    (st : PipelineState) :
    routeActivity resolve s (routeActivity resolve s st) = routeActivity resolve s st := by
  have hall : ∀ r ∈ resolve s,
      (r, s) ∈ (resolve s).foldl (fun q u => enqueuePending q u s) st.pending :=
    fun r hr => mem_routeFold_all s (resolve s) st.pending r hr
  have hpe : (resolve s).foldl (fun q u => enqueuePending q u s)
        ((resolve s).foldl (fun q u => enqueuePending q u s) st.pending)
      = (resolve s).foldl (fun q u => enqueuePending q u s) st.pending :=
    routeFold_noop s (resolve s) _ hall
  simp only [routeActivity]
  rw [hpe]

/-- Every pending entry after routing was pending before or carries the
routed seed. -/
theorem routeFold_shape (s : ActivitySeed) (l : List RecipientId) :
    ∀ (p : List (RecipientId × ActivitySeed)) (x : RecipientId × ActivitySeed),
      x ∈ l.foldl (fun q r => enqueuePending q r s) p → x ∈ p ∨ x.2 = s := by
  induction l with
  | nil => intro p x hx; exact Or.inl hx
  | cons r tl ih =>
    intro p x hx
    rcases ih (enqueuePending p r s) x hx with hm | hs
    · unfold enqueuePending at hm
      by_cases hmem : (r, s) ∈ p
      · rw [if_pos hmem] at hm
        exact Or.inl hm
      · rw [if_neg hmem] at hm
        rcases List.mem_append.mp hm with h1 | h2
        · exact Or.inl h1
        · right
          rw [List.mem_singleton.mp h2]
    · exact Or.inr hs

/-- Looking up a recipient other than the stored one is unaffected. -/
theorem getNotif_setNotif_ne (r q : RecipientId) (ns : NotificationState) (h : q ≠ r) :
    ∀ l : List (RecipientId × NotificationState),
      getNotif (setNotif l r ns) q = getNotif l q := by
  intro l
  induction l with
  | nil =>
    simp only [setNotif, getNotif]
    rw [if_neg (Ne.symm h)]
  | cons a tl ih =>
    obtain ⟨ar, ans⟩ := a
    simp only [setNotif]
    by_cases har : ar = r
    · rw [if_pos har]
      subst har
      simp only [getNotif]
      rw [if_neg (Ne.symm h), if_neg (Ne.symm h)]
    · rw [if_neg har]
      simp only [getNotif]
      by_cases haq : ar = q
      · rw [if_pos haq, if_pos haq]
      · rw [if_neg haq, if_neg haq, ih]

/-- The email dispatcher never touches the notification states. -/
theorem dispatchEmail_notif (en : RecipientId → Bool) (aid : Nat) (r : RecipientId)
    (st : PipelineState) : (dispatchEmail en aid r st).notif = st.notif := by
  unfold dispatchEmail
  split
  · split
    · rfl
    · rfl
  · rfl

/-- What processing one pending entry does to the notification map: nothing
when the recipient is the actor of the seed, otherwise the delivery is
stored under that recipient. -/
theorem processPendingEntry_notif (W now : Nat) (en : RecipientId → Bool)
    (st : PipelineState) (x : RecipientId × ActivitySeed) :
    (processPendingEntry W now en st x).notif =
      if x.1 = x.2.actor.resourceId then st.notif
      else setNotif st.notif x.1
        (deliverSeedFull W now st.nextId (getNotif st.notif x.1) x.2).1 := by
  simp only [processPendingEntry]
  by_cases hax : x.1 = x.2.actor.resourceId
  · rw [if_pos hax, if_pos hax]
  · rw [if_neg hax, if_neg hax, dispatchEmail_notif]

/-- A collection fold never touches the notification state of a recipient
that only occurs in pending entries naming it as the actor. -/
theorem foldl_process_notif_other (W now : Nat) (en : RecipientId → Bool) (a : RecipientId) :
    ∀ (entries : List (RecipientId × ActivitySeed)) (st : PipelineState),
      (∀ x ∈ entries, x.1 = a → x.1 = x.2.actor.resourceId) →
      getNotif (entries.foldl (processPendingEntry W now en) st).notif a
        = getNotif st.notif a := by
  intro entries
  induction entries with
  | nil => intro st _; rfl
  | cons x tl ih =>
    intro st h
    have hx := h x (List.mem_cons_self x tl)
    have hstep : getNotif (processPendingEntry W now en st x).notif a
        = getNotif st.notif a := by
      rw [processPendingEntry_notif]
      by_cases hax : x.1 = x.2.actor.resourceId
      · rw [if_pos hax]
      · rw [if_neg hax]
        have hxa : x.1 ≠ a := fun heq => hax (hx heq)
        exact getNotif_setNotif_ne x.1 a _ (Ne.symm hxa) st.notif
    show getNotif
        (List.foldl (processPendingEntry W now en) (processPendingEntry W now en st x) tl).notif a
      = getNotif st.notif a
    rw [ih (processPendingEntry W now en st x) (fun y hy => h y (List.mem_cons_of_mem x hy)),
      hstep]

/-- Claim C5: the actor of a seed never receives a notification-feed entry
for it: collecting any routed seed leaves the actor state untouched, and in
the creation scenario the member recipient ends with exactly one entry while
the actor ends with none. -/
theorem C5_actor_never_notified (W now : Nat) (emailEnabled : RecipientId → Bool)
    (resolve : ActivitySeed → List RecipientId) (s : ActivitySeed) (b : RecipientId)
    (hres : resolve s = [s.actor.resourceId, b]) (hb : b ≠ s.actor.resourceId) :
    (∀ (resolve2 : ActivitySeed → List RecipientId) (st : PipelineState), st.pending = [] →
      getNotif (collectCycle W now emailEnabled (routeActivity resolve2 s st)).notif
          s.actor.resourceId
        = getNotif st.notif s.actor.resourceId)
    ∧ (getNotif (collectCycle W now emailEnabled
          (routeActivity resolve s initPipeline)).notif b).feed.length = 1
    ∧ (getNotif (collectCycle W now emailEnabled
          (routeActivity resolve s initPipeline)).notif s.actor.resourceId).feed.length = 0 := by
  have hpart1 : ∀ (resolve2 : ActivitySeed → List RecipientId) (st : PipelineState),
      st.pending = [] →
      getNotif (collectCycle W now emailEnabled (routeActivity resolve2 s st)).notif
          s.actor.resourceId
        = getNotif st.notif s.actor.resourceId := by
    intro resolve2 st hp
    have hshape : ∀ x ∈ (resolve2 s).foldl (fun q r => enqueuePending q r s) st.pending,
        x.1 = s.actor.resourceId → x.1 = x.2.actor.resourceId := by
      intro x hx heq
      rcases routeFold_shape s (resolve2 s) st.pending x hx with hm | hs
      · rw [hp] at hm
        cases hm
      · rw [hs]
        exact heq
    exact foldl_process_notif_other W now emailEnabled s.actor.resourceId
      ((resolve2 s).foldl (fun q r => enqueuePending q r s) st.pending)
      { routeActivity resolve2 s st with pending := [] } hshape
  refine ⟨hpart1, ?_, ?_⟩
  all_goals
    have h1 : enqueuePending [] s.actor.resourceId s = [(s.actor.resourceId, s)] := rfl
    have hnm : ¬((b, s) ∈ [(s.actor.resourceId, s)]) := by
      intro hmem
      have heq := List.mem_singleton.mp hmem
      exact hb (congrArg Prod.fst heq)
    have h2 : enqueuePending [(s.actor.resourceId, s)] b s
        = [(s.actor.resourceId, s), (b, s)] := by
      unfold enqueuePending
      rw [if_neg hnm]
      rfl
    have hpend : (routeActivity resolve s initPipeline).pending
        = [(s.actor.resourceId, s), (b, s)] := by
      show (resolve s).foldl (fun q r => enqueuePending q r s) [] = _
      rw [hres]
      show enqueuePending (enqueuePending [] s.actor.resourceId s) b s = _
      rw [h1, h2]
    have hstep1 : processPendingEntry W now emailEnabled initPipeline (s.actor.resourceId, s)
        = initPipeline := by
      simp [processPendingEntry]
    have hfin : collectCycle W now emailEnabled (routeActivity resolve s initPipeline)
        = processPendingEntry W now emailEnabled initPipeline (b, s) := by
      unfold collectCycle
      rw [hpend]
      show List.foldl (processPendingEntry W now emailEnabled)
          (processPendingEntry W now emailEnabled initPipeline (s.actor.resourceId, s))
          [(b, s)] = _
      rw [hstep1]
      rfl
    have hnotif : (processPendingEntry W now emailEnabled initPipeline (b, s)).notif
        = [(b, { feed := [newEntry s now 0], unreadCount := 1, lastReadTime := none })] := by
      rw [processPendingEntry_notif]
      rw [if_neg hb]
      rfl
  · rw [hfin, hnotif]
    simp [getNotif]
  · rw [hfin, hnotif]
    simp [getNotif, hb, initNotif]

/-- Witness for claim C5 at a concrete creation seed routed to the actor
stream and one member. -/
theorem C5_actor_never_notified_witness :
    (∀ (resolve2 : ActivitySeed → List RecipientId) (st : PipelineState), st.pending = [] →
      getNotif (collectCycle 60000 3 (fun _ => true) (routeActivity resolve2 seedA st)).notif
          seedA.actor.resourceId
        = getNotif st.notif seedA.actor.resourceId)
    ∧ (getNotif (collectCycle 60000 3 (fun _ => true)
          (routeActivity resolveActorAndMember seedA initPipeline)).notif
          "u:cam:simong").feed.length = 1
    ∧ (getNotif (collectCycle 60000 3 (fun _ => true)
          (routeActivity resolveActorAndMember seedA initPipeline)).notif
          seedA.actor.resourceId).feed.length = 0 :=
  C5_actor_never_notified 60000 3 (fun _ => true) resolveActorAndMember seedA "u:cam:simong"
    rfl (by decide)

/-- Claim C1: routing the identical seed multiple times produces no
duplicate pending entries (re-routing is a no-op), and with two distinct
email-enabled recipients three routings of the same content-update seed
followed by a collection send exactly two emails, one per recipient; the
receipt check makes a repeated dispatch for the same activity and recipient
a no-op. -/
theorem C1_route_idempotent_and_email_once (W now : Nat) (emailEnabled : RecipientId → Bool)
    (resolve : ActivitySeed → List RecipientId) (s : ActivitySeed)
    (r1 r2 : RecipientId) (st : PipelineState)
    (hres : resolve s = [r1, r2]) (h12 : r1 ≠ r2)
    (h1a : r1 ≠ s.actor.resourceId) (h2a : r2 ≠ s.actor.resourceId)
    (he1 : emailEnabled r1 = true) (he2 : emailEnabled r2 = true) :
    routeActivity resolve s (routeActivity resolve s st) = routeActivity resolve s st
    ∧ (routeActivity resolve s (routeActivity resolve s
        (routeActivity resolve s initPipeline))).pending = [(r1, s), (r2, s)]
    ∧ (collectCycle W now emailEnabled (routeActivity resolve s (routeActivity resolve s
        (routeActivity resolve s initPipeline)))).emails = [(r1, 0), (r2, 1)]
    ∧ ∀ (aid : Nat) (r : RecipientId) (st2 : PipelineState),
        dispatchEmail emailEnabled aid r (dispatchEmail emailEnabled aid r st2)
          = dispatchEmail emailEnabled aid r st2 := by
  have h1 : enqueuePending [] r1 s = [(r1, s)] := rfl
  have hnm : ¬((r2, s) ∈ [(r1, s)]) := by
    intro hmem
    exact h12 ((congrArg Prod.fst (List.mem_singleton.mp hmem)).symm)
  have h2 : enqueuePending [(r1, s)] r2 s = [(r1, s), (r2, s)] := by
    unfold enqueuePending
    rw [if_neg hnm]
    rfl
  have hpend : (routeActivity resolve s initPipeline).pending = [(r1, s), (r2, s)] := by
    show (resolve s).foldl (fun q r => enqueuePending q r s) [] = _
    rw [hres]
    show enqueuePending (enqueuePending [] r1 s) r2 s = _
    rw [h1, h2]
  have hroute3 : routeActivity resolve s (routeActivity resolve s
      (routeActivity resolve s initPipeline)) = routeActivity resolve s initPipeline := by
    rw [routeActivity_idem, routeActivity_idem]
  have hstep1 : processPendingEntry W now emailEnabled initPipeline (r1, s)
      = { pending := []
          notif := [(r1, { feed := [newEntry s now 0], unreadCount := 1, lastReadTime := none })]
          receipts := [(0, r1)], emails := [(r1, 0)], nextId := 1 } := by
    simp only [processPendingEntry]
    rw [if_neg h1a]
    unfold dispatchEmail
    rw [if_pos he1]
    rfl
  have hg : getNotif
      [(r1, { feed := [newEntry s now 0], unreadCount := 1, lastReadTime := none })] r2
      = initNotif := by
    simp only [getNotif]
    rw [if_neg h12]
  have hdf : deliverSeedFull W now 1 initNotif s
      = ({ feed := [newEntry s now 1], unreadCount := 1, lastReadTime := none }, 1, true) := rfl
  have hstep2 : (processPendingEntry W now emailEnabled
      { pending := []
        notif := [(r1, { feed := [newEntry s now 0], unreadCount := 1, lastReadTime := none })]
        receipts := [(0, r1)], emails := [(r1, 0)], nextId := 1 } (r2, s)).emails
      = [(r1, 0), (r2, 1)] := by
    simp only [processPendingEntry]
    rw [if_neg h2a]
    rw [hg, hdf]
    unfold dispatchEmail
    rw [if_pos he2]
    rfl
  have hcoll : (collectCycle W now emailEnabled (routeActivity resolve s initPipeline)).emails
      = [(r1, 0), (r2, 1)] := by
    unfold collectCycle
    rw [hpend]
    show (processPendingEntry W now emailEnabled
        (processPendingEntry W now emailEnabled initPipeline (r1, s)) (r2, s)).emails
      = [(r1, 0), (r2, 1)]
    rw [hstep1]
    exact hstep2
  refine ⟨routeActivity_idem resolve s st, ?_, ?_, ?_⟩
  · rw [hroute3]
    exact hpend
  · rw [hroute3]
    exact hcoll
  · intro aid r st2
    by_cases he : emailEnabled r = true
    · by_cases hm : (aid, r) ∈ st2.receipts
      · simp [dispatchEmail, he, hm]
      · simp [dispatchEmail, he, hm]
    · simp [dispatchEmail, he]

/-- Witness for claim C1 at a concrete content-update seed routed three
times to the two concrete email recipients. -/
theorem C1_route_idempotent_and_email_once_witness :
    routeActivity resolveTwo seedU (routeActivity resolveTwo seedU initPipeline)
      = routeActivity resolveTwo seedU initPipeline
    ∧ (routeActivity resolveTwo seedU (routeActivity resolveTwo seedU
        (routeActivity resolveTwo seedU initPipeline))).pending
      = [("u:cam:mrvisser", seedU), ("u:cam:nico", seedU)]
    ∧ (collectCycle 60000 5 (fun _ => true) (routeActivity resolveTwo seedU
        (routeActivity resolveTwo seedU
          (routeActivity resolveTwo seedU initPipeline)))).emails
      = [("u:cam:mrvisser", 0), ("u:cam:nico", 1)]
    ∧ ∀ (aid : Nat) (r : RecipientId) (st2 : PipelineState),
        dispatchEmail (fun _ => true) aid r (dispatchEmail (fun _ => true) aid r st2)
          = dispatchEmail (fun _ => true) aid r st2 :=
  C1_route_idempotent_and_email_once 60000 5 (fun _ => true) resolveTwo seedU
    "u:cam:mrvisser" "u:cam:nico" initPipeline rfl (by decide) (by decide) (by decide) rfl rfl

end Hilary
